import Mathlib

/-!
Verification development for the UN Translator backend relay
(`backend/server.js`): a shallow embedding of the per-connection session
controller — the `startSession`, `audioData`, `endSession`/`disconnect`
handlers, the `processResponses` relay loop and the `closeSession`
teardown — as pure state-transition functions over an explicit action
trace, together with theorems settling the specified properties.

The trace records, in order, every event written to the upstream
bidirectional stream (`Act.up`), every message emitted to the client
socket (`Act.emit`) and every console log line (`Act.log`).
-/

namespace UnT

/-- A JavaScript string-or-absent value, as seen by the `||` operator:
`undef` models `undefined` (absent property or absent object), `null`
models `null`, and `str s` an actual string (possibly empty). -/
inductive JsStr
  | undef
  | null
  | str (s : String)

/-- The `config` object of a `startSession` request: `config.sourceLang`
and `config.targetLang`. -/
structure Config where
  sourceLang : JsStr
  targetLang : JsStr

/-- JavaScript `v || d` on a string-valued `v`: `undefined`, `null` and
`""` are falsy and fall through to the default. -/
def jsOr (v : JsStr) (d : String) : String :=
  match v with
  | .undef => d
  | .null => d
  | .str s => if s == "" then d else s

/-- Whether a JavaScript string value is falsy for `||`: `undefined`,
`null`, or the empty string. -/
def falsy : JsStr → Bool
  | .undef => true
  | .null => true
  | .str s => s == ""

/-- `config?.sourceLang`: absent config yields `undefined`. -/
def cfgSourceLang : Option Config → JsStr
  | none => .undef
  | some c => c.sourceLang

/-- `config?.targetLang`: absent config yields `undefined`. -/
def cfgTargetLang : Option Config → JsStr
  | none => .undef
  | some c => c.targetLang

/-- The static `SUPPORTED_LANGUAGES` map of `server.js`. -/
def SUPPORTED_LANGUAGES (tag : String) : Option String :=
  if tag == "en-US" then some "English"
  else if tag == "es-US" then some "Spanish"
  else if tag == "fr-FR" then some "French"
  else if tag == "de-DE" then some "German"
  else if tag == "it-IT" then some "Italian"
  else if tag == "pt-BR" then some "Portuguese"
  else none

/-- `SUPPORTED_LANGUAGES[lang] || lang`: unknown tags fall back to the
raw tag. -/
def resolveName (tag : String) : String :=
  (SUPPORTED_LANGUAGES tag).getD tag

/-- The translation system prompt built in `startSession` (template
literal of `server.js`, lines 154-161). -/
def systemPrompt (sourceName targetName : String) : String :=
  "You are a professional UN-style interpreter. Translate speech from " ++ sourceName ++
  " to " ++ targetName ++ " in real-time.\nRules:\n1. Translate meaning accurately, not word-for-word\n2. Maintain the speaker\x27s tone and intent\n3. Speak naturally in " ++
  targetName ++ "\n4. Do not add commentary\n5. If you hear silence, remain silent\n6. Translate continuously like a live interpreter"

/-- The role field of an outbound `contentStart` event. -/
inductive Role
  | system
  | user

/-- The per-connection content names: `systemContentName` and
`audioContentName` (uuids generated once per connection). -/
inductive CName
  | systemContent
  | audioContent

/-- An event written to the upstream Nova Sonic stream via `sendEvent`.
Payload fields retained where the specified properties refer to them;
all events of one connection carry the same `promptName`, which is
therefore left implicit. -/
inductive UpEvent
  | sessionStart
  | promptStart
  | contentStart (name : CName) (role : Role)
  | textInput (name : CName) (content : String)
  | audioInput (name : CName) (content : String)
  | contentEnd (name : CName)
  | promptEnd
  | sessionEnd

/-- A message emitted to the client socket. The role carried by a
relayed `contentStart` is `Option String` because the inbound event may
lack the `role` field (then `undefined` is forwarded). -/
inductive ClientMsg
  | sessionReady
  | audioOutput (content : String)
  | textOutput (text : String)
  | contentStart (role : Option String)
  | error (message : String)

/-- One observable action of the backend: an upstream write, a client
emit, or a console log line. -/
inductive Act
  | up (e : UpEvent)
  | emit (m : ClientMsg)
  | log (s : String)

/-- The mutable state of one socket connection: the socket id, whether
the closure variable `session` holds a stream handle, whether
`activeSessions` contains this socket id, the chosen language tags, and
the accumulated action trace. -/
structure ConnState where
  sid : String
  session : Bool
  inMap : Bool
  sourceLang : String
  targetLang : String
  trace : List Act

/-- The state of a fresh connection (`io.on('connection')` closure
initialisation, lines 75-80). -/
def connInit (sid : String) : ConnState :=
  { sid := sid, session := false, inMap := false,
    sourceLang := "en-US", targetLang := "es-US", trace := [] }

/-- The six setup events sent by a successful `startSession`, in source
order: sessionStart, promptStart, the system content-start / text-input
/ content-end triple, then the audio content-start. -/
def setupEvents (sourceName targetName : String) : List UpEvent :=
  [ .sessionStart,
    .promptStart,
    .contentStart .systemContent .system,
    .textInput .systemContent (systemPrompt sourceName targetName),
    .contentEnd .systemContent,
    .contentStart .audioContent .user ]

/-- The `startSession` handler, success path (lines 83-207): resolves
the languages, opens the stream (`session := true`, registration in
`activeSessions`), sends the setup sequence, then emits `sessionReady`. -/
def startSession (config : Option Config) (st : ConnState) : ConnState :=
  let sl := jsOr (cfgSourceLang config) "en-US"
  let tl := jsOr (cfgTargetLang config) "es-US"
  let sn := resolveName sl
  let tn := resolveName tl
  { st with
    sourceLang := sl
    targetLang := tl
    session := true
    inMap := true
    trace := st.trace
      ++ [Act.log ("Starting session: " ++ sn ++ " -> " ++ tn)]
      ++ (setupEvents sn tn).map Act.up
      ++ [Act.emit .sessionReady, Act.log ("Session ready: " ++ st.sid)] }

/-- The `startSession` handler when some awaited step throws (catch at
lines 209-212): `opened` says whether `bedrockClient.send` succeeded
(only then is `session` assigned and the socket registered), `sent` is
the number of setup events already written. The catch logs and emits
one error. -/
def startSessionFail (config : Option Config) (opened : Bool) (sent : Nat)
    (msg : String) (st : ConnState) : ConnState :=
  let sl := jsOr (cfgSourceLang config) "en-US"
  let tl := jsOr (cfgTargetLang config) "es-US"
  let sn := resolveName sl
  let tn := resolveName tl
  { st with
    sourceLang := sl
    targetLang := tl
    session := opened || st.session
    inMap := opened || st.inMap
    trace := st.trace
      ++ [Act.log ("Starting session: " ++ sn ++ " -> " ++ tn)]
      ++ (if opened then ((setupEvents sn tn).take sent).map Act.up else [])
      ++ [Act.log ("Error starting session: " ++ msg), Act.emit (.error msg)] }

/-- The `audioData` handler, success path (lines 216-231): without a
session it returns immediately; otherwise it wraps the chunk in an
`audioInput` event on the audio content turn. -/
def audioData (d : String) (st : ConnState) : ConnState :=
  if st.session then
    { st with trace := st.trace ++ [Act.up (.audioInput .audioContent d)] }
  else st

/-- The `audioData` handler when `sendEvent` throws (catch at lines
232-234): the error is only logged to the console; nothing is emitted
to the client. -/
def audioDataFail (msg : String) (st : ConnState) : ConnState :=
  if st.session then
    { st with trace := st.trace ++ [Act.log ("Error sending audio: " ++ msg)] }
  else st

/-- The three teardown events of `closeSession`, in source order. -/
def teardownEvents : List UpEvent :=
  [ .contentEnd .audioContent, .promptEnd, .sessionEnd ]

/-- `closeSession` (lines 300-335), success path: a no-op without a
session handle; otherwise sends contentEnd/promptEnd/sessionEnd and
deletes the socket from `activeSessions`. The closure variable
`session` is never reassigned, so `session` stays `true`. Invoked by
both the `endSession` and the `disconnect` handler. -/
def closeSession (st : ConnState) : ConnState :=
  if st.session then
    { st with
      inMap := false
      trace := st.trace ++ teardownEvents.map Act.up
        ++ [Act.log ("Session closed: " ++ st.sid)] }
  else st

/-- `closeSession` when a `sendEvent` throws after `sent` teardown
events succeeded (catch at lines 332-334): the error is only logged;
the `activeSessions.delete` inside the try block is not reached. -/
def closeSessionFail (sent : Nat) (msg : String) (st : ConnState) : ConnState :=
  if st.session then
    { st with trace := st.trace ++ (teardownEvents.take sent).map Act.up
        ++ [Act.log ("Error closing session: " ++ msg)] }
  else st

/-- A decoded inbound response event (`responseData.event`): each field
is present or not, independently; `contentStart = some r` means the
event has a `contentStart` member whose `role` field is `r` (possibly
absent). -/
structure InEvent where
  audioOutput : Option String
  textOutput : Option String
  contentStart : Option (Option String)

/-- One item of the upstream response stream as seen by the relay loop:
a chunk without bytes (skipped by the guard at line 267), a decodable
chunk without an `event` member, or an event. -/
inductive Chunk
  | noBytes
  | noEvent
  | ev (e : InEvent)

/-- The client messages produced for one inbound event (the three
independent `if`s at lines 273-288): audio is relayed verbatim, text is
relayed verbatim, and a `contentStart` emit is produced whenever the
inbound event has a `contentStart` member — its `role` field forwarded
whether present or not. -/
def handleInEvent (e : InEvent) : List ClientMsg :=
  (match e.audioOutput with
   | some c => [ClientMsg.audioOutput c]
   | none => [])
  ++ (match e.textOutput with
      | some t => [ClientMsg.textOutput t]
      | none => [])
  ++ (match e.contentStart with
      | some r => [ClientMsg.contentStart r]
      | none => [])

/-- The client messages produced by the `for await` body of
`processResponses` over a list of inbound chunks. -/
def relayEmits : List Chunk → List ClientMsg
  | [] => []
  | .noBytes :: rest => relayEmits rest
  | .noEvent :: rest => relayEmits rest
  | .ev e :: rest => handleInEvent e ++ relayEmits rest

/-- How one run of the relay loop ends: the stream completes normally,
or the iteration throws an error with the given `name` and `message`. -/
inductive Termination
  | normalEnd
  | errorEnd (name msg : String)

/-- The trailing actions of `processResponses` (catch at lines
291-296): nothing on normal completion or on an `AbortError`; one
console log and one client error emit otherwise. -/
def relayTail : Termination → List Act
  | .normalEnd => []
  | .errorEnd name msg =>
      if name == "AbortError" then []
      else [Act.log ("Error processing responses: " ++ msg), Act.emit (.error msg)]

/-- A full run of `processResponses`: relays the chunks received before
termination, then the termination handling. It touches neither the
session handle nor the upstream stream. -/
def processResponsesRun (chunks : List Chunk) (term : Termination)
    (st : ConnState) : ConnState :=
  { st with trace := st.trace ++ (relayEmits chunks).map Act.emit ++ relayTail term }

/-! ### Trace projections and event classifiers -/

/-- The upstream event carried by an action, if any. -/
def upOf : Act → Option UpEvent
  | .up e => some e
  | _ => none

/-- The sequence of events written to the upstream stream. -/
def upstreamOf (tr : List Act) : List UpEvent :=
  tr.filterMap upOf

/-- Whether an action is observable by client or upstream (console logs
are not). -/
def isVisible : Act → Bool
  | .log _ => false
  | _ => true

/-- The trace restricted to upstream writes and client emits. -/
def visibleActs (tr : List Act) : List Act :=
  tr.filter isVisible

/-- Whether a client message is an `error` emit. -/
def isErrorMsg : ClientMsg → Bool
  | .error _ => true
  | _ => false

/-- Whether an action emits an `error` message to the client. -/
def isErrorEmit : Act → Bool
  | .emit (.error _) => true
  | _ => false

/-- The number of `error` messages emitted to the client in a trace. -/
def errCount (tr : List Act) : Nat :=
  tr.countP isErrorEmit

/-- Whether an upstream event opens the audio content turn. -/
def isAudioContentStart : UpEvent → Bool
  | .contentStart .audioContent _ => true
  | _ => false

/-- Whether an upstream event closes the audio content turn. -/
def isAudioContentEnd : UpEvent → Bool
  | .contentEnd .audioContent => true
  | _ => false

/-- Whether an upstream event is an audio input frame. -/
def isAudioInputEvent : UpEvent → Bool
  | .audioInput _ _ => true
  | _ => false

/-- Whether an upstream event ends the prompt or the session. -/
def isPromptOrSessionEnd : UpEvent → Bool
  | .promptEnd => true
  | .sessionEnd => true
  | _ => false

/-- Whether an upstream event is `sessionEnd`. -/
def isSessionEndEvent : UpEvent → Bool
  | .sessionEnd => true
  | _ => false

/-- The upstream event sequence of one full session lifecycle on a
fresh connection: a successful `startSession`, then the given audio
chunks forwarded in order, then one `closeSession` (explicit
end-session or disconnect). -/
def sessionTrace (config : Option Config) (sid : String)
    (frames : List String) : List UpEvent :=
  upstreamOf (closeSession
    (frames.foldl (fun s d => audioData d s)
      (startSession config (connInit sid)))).trace

/-- The audio payload of a client message, if it is an audio-output
relay. -/
def audioMsgContent : ClientMsg → Option String
  | .audioOutput c => some c
  | _ => none

/-- The audio-output payload carried by an inbound chunk, if any. -/
def chunkAudioContent : Chunk → Option String
  | .ev e => e.audioOutput
  | _ => none

/-- Whether a client message is a relayed `contentStart` (role-changed)
notification. -/
def isContentStartMsg : ClientMsg → Bool
  | .contentStart _ => true
  | _ => false

/-- The role payload of a client message, if it is a `contentStart`
notification. -/
def roleNotifOf : ClientMsg → Option (Option String)
  | .contentStart r => some r
  | _ => none

/-- The `contentStart` member carried by an inbound chunk, if any
(inner `Option`: the role field, possibly absent). -/
def chunkContentStartRole : Chunk → Option (Option String)
  | .ev e => e.contentStart
  | _ => none

/-! ### Helper lemmas -/

/-- A falsy value falls through `jsOr` to the default. -/
theorem jsOr_falsy (v : JsStr) (d : String) (h : falsy v = true) :
    jsOr v d = d := by
  cases v <;> simp_all [falsy, jsOr]

/-- `upstreamOf` distributes over trace concatenation. -/
theorem upstreamOf_append (a b : List Act) :
    upstreamOf (a ++ b) = upstreamOf a ++ upstreamOf b := by
  simp [upstreamOf, List.filterMap_append]

/-- Upstream writes project to the written events. -/
theorem upstreamOf_map_up (l : List UpEvent) :
    upstreamOf (l.map Act.up) = l := by
  induction l with
  | nil => rfl
  | cons e rest ih => simp [upstreamOf, upOf, List.filterMap_cons] at ih ⊢; exact ih

/-- Client emits contribute nothing to the upstream projection. -/
theorem upstreamOf_map_emit (l : List ClientMsg) :
    upstreamOf (l.map Act.emit) = [] := by
  induction l with
  | nil => rfl
  | cons m rest ih => simp [upstreamOf, upOf, List.filterMap_cons, ih]

/-- `errCount` distributes over trace concatenation. -/
theorem errCount_append (a b : List Act) :
    errCount (a ++ b) = errCount a + errCount b := by
  simp [errCount, List.countP_append]

/-- Upstream writes emit no client errors. -/
theorem errCount_map_up (l : List UpEvent) :
    errCount (l.map Act.up) = 0 := by
  induction l with
  | nil => rfl
  | cons e rest ih => simp [errCount, isErrorEmit, List.countP_cons, ih]

/-- The body of the relay loop never emits an `error` message: each
inbound event only yields `audioOutput`, `textOutput` and
`contentStart` emits. -/
theorem relayEmits_no_error (chunks : List Chunk) :
    (relayEmits chunks).countP isErrorMsg = 0 := by
  induction chunks with
  | nil => rfl
  | cons c rest ih =>
      cases c with
      | noBytes => simpa [relayEmits] using ih
      | noEvent => simpa [relayEmits] using ih
      | ev e =>
          have h : (handleInEvent e).countP isErrorMsg = 0 := by
            unfold handleInEvent
            cases e.audioOutput <;> cases e.textOutput <;> cases e.contentStart <;>
              simp [isErrorMsg, List.countP_append, List.countP_cons]
          simp [relayEmits, List.countP_append, h, ih]

/-- Emitting a list of relay messages contributes to `errCount` exactly
the number of `error` messages among them. -/
theorem errCount_map_emit (l : List ClientMsg) :
    errCount (l.map Act.emit) = l.countP isErrorMsg := by
  induction l with
  | nil => rfl
  | cons m rest ih =>
      cases m <;> simp [errCount, isErrorEmit, isErrorMsg, List.countP_cons, *] at ih ⊢ <;>
        exact ih

/-- An `audioData` call on a started state appends one audio input
frame to the trace and changes nothing else. -/
theorem audioData_started (d : String) (st : ConnState) (h : st.session = true) :
    audioData d st =
      { st with trace := st.trace ++ [Act.up (.audioInput .audioContent d)] } := by
  simp [audioData, h]

/-- Folding `audioData` over a list of frames from a started state
appends the corresponding audio input events, in order. -/
theorem foldl_audioData (frames : List String) (st : ConnState) (h : st.session = true) :
    frames.foldl (fun s d => audioData d s) st =
      { st with trace := st.trace
          ++ frames.map (fun d => Act.up (.audioInput .audioContent d)) } := by
  induction frames generalizing st with
  | nil => simp
  | cons d rest ih =>
      rw [List.foldl_cons, audioData_started d st h]
      rw [ih { st with trace := st.trace ++ [Act.up (.audioInput .audioContent d)] } h]
      simp

/-- A `closeSession` call on a started state appends the teardown
events and the closing log, and clears the `activeSessions` entry —
but not the `session` handle. -/
theorem closeSession_started (st : ConnState) (h : st.session = true) :
    closeSession st =
      { st with
        inMap := false
        trace := st.trace ++ teardownEvents.map Act.up
          ++ [Act.log ("Session closed: " ++ st.sid)] } := by
  simp [closeSession, h]

/-- A prefix of elements all satisfying the predicate passes through
`takeWhile` unchanged. -/
theorem takeWhile_append_all {α : Type} (q : α → Bool) (A B : List α)
    (h : ∀ a ∈ A, q a = true) :
    (A ++ B).takeWhile q = A ++ B.takeWhile q := by
  induction A with
  | nil => simp
  | cons a tl ih =>
      have ha : q a = true := h a (List.mem_cons_self a tl)
      simp [List.takeWhile_cons, ha, ih fun x hx => h x (List.mem_cons_of_mem a hx)]

/-- The audio payloads among the messages produced for one inbound
event are exactly its own audio-output payload, if present. -/
theorem handleInEvent_audio (e : InEvent) :
    (handleInEvent e).filterMap audioMsgContent = e.audioOutput.toList := by
  obtain ⟨ao, txt, cs⟩ := e
  cases ao <;> cases txt <;> cases cs <;>
    simp [handleInEvent, audioMsgContent, List.filterMap_cons, List.filterMap_append]

/-- The role notifications produced for one inbound event are exactly
its own `contentStart` member, if present. -/
theorem handleInEvent_role (e : InEvent) :
    (handleInEvent e).filterMap roleNotifOf = e.contentStart.toList := by
  obtain ⟨ao, txt, cs⟩ := e
  cases ao <;> cases txt <;> cases cs <;>
    simp [handleInEvent, roleNotifOf, List.filterMap_cons, List.filterMap_append]

/-! ### Claim theorems -/

/-- C1: every `startSession` call, whatever the `(sourceLang,
targetLang)` configuration, writes to the upstream stream exactly one
`sessionStart`, then one `promptStart`, then exactly one system-role
`contentStart` / `textInput` / `contentEnd` triple, then exactly one
audio `contentStart`, in that strict order, and the `sessionReady`
emit to the client comes only after this full setup sequence: the
client- and upstream-visible actions added by the handler are exactly
that seven-element sequence. -/
theorem startSession_setup_order (config : Option Config) (st : ConnState) :
    ∃ sys : String,
      visibleActs (startSession config st).trace =
        visibleActs st.trace ++
          [Act.up .sessionStart,
           Act.up .promptStart,
           Act.up (.contentStart .systemContent .system),
           Act.up (.textInput .systemContent sys),
           Act.up (.contentEnd .systemContent),
           Act.up (.contentStart .audioContent .user),
           Act.emit .sessionReady] := by
  refine ⟨systemPrompt (resolveName (jsOr (cfgSourceLang config) "en-US"))
      (resolveName (jsOr (cfgTargetLang config) "es-US")), ?_⟩
  simp [startSession, visibleActs, setupEvents, isVisible, List.filter_append]

/-- C9: an audio chunk or an end-session request arriving while the
connection has no session handle (StartSession never completed) is
silently ignored: the state, hence the upstream stream and the client
emits, are untouched, and in particular no error is emitted. -/
theorem no_session_noop (d : String) (st : ConnState) (h : st.session = false) :
    audioData d st = st ∧
    closeSession st = st ∧
    upstreamOf (audioData d st).trace = upstreamOf st.trace ∧
    errCount (audioData d st).trace = errCount st.trace ∧
    upstreamOf (closeSession st).trace = upstreamOf st.trace ∧
    errCount (closeSession st).trace = errCount st.trace := by
  have ha : audioData d st = st := by simp [audioData, h]
  have hc : closeSession st = st := by simp [closeSession, h]
  exact ⟨ha, hc, by rw [ha], by rw [ha], by rw [hc], by rw [hc]⟩

/-- Witness for C9 at the fresh connection state. -/
theorem no_session_noop_witness :
    audioData "zz" (connInit "w9") = connInit "w9" ∧
    closeSession (connInit "w9") = connInit "w9" ∧
    upstreamOf (audioData "zz" (connInit "w9")).trace = upstreamOf (connInit "w9").trace ∧
    errCount (audioData "zz" (connInit "w9")).trace = errCount (connInit "w9").trace ∧
    upstreamOf (closeSession (connInit "w9")).trace = upstreamOf (connInit "w9").trace ∧
    errCount (closeSession (connInit "w9")).trace = errCount (connInit "w9").trace :=
  no_session_noop "zz" (connInit "w9") rfl

/-- C10: a start-session request whose config is absent or whose
`sourceLang` / `targetLang` field is missing, `null` or the empty
string falls back to the defaults `"en-US"` and `"es-US"` (JavaScript
falsy fallback `config?.sourceLang || 'en-US'`). -/
theorem default_languages (config : Option Config) (st : ConnState)
    (hs : falsy (cfgSourceLang config) = true)
    (ht : falsy (cfgTargetLang config) = true) :
    (startSession config st).sourceLang = "en-US" ∧
    (startSession config st).targetLang = "es-US" := by
  constructor <;> simp [startSession, jsOr_falsy _ _ hs, jsOr_falsy _ _ ht]

/-- Witness for C10: a config with a `null` source language and an
empty target language. -/
theorem default_languages_witness :
    (startSession (some { sourceLang := JsStr.null, targetLang := JsStr.str "" })
        (connInit "w10")).sourceLang = "en-US" ∧
    (startSession (some { sourceLang := JsStr.null, targetLang := JsStr.str "" })
        (connInit "w10")).targetLang = "es-US" :=
  default_languages _ _ (by decide) (by rfl)

/-- C8: the relay loop forwards every inbound audio-output event to the
client with its content payload unmodified and in the order received:
the sequence of audio payloads emitted to the client equals the
sequence of audio-output payloads of the inbound chunks. -/
theorem audioOutput_relay_order (chunks : List Chunk) :
    (relayEmits chunks).filterMap audioMsgContent =
      chunks.filterMap chunkAudioContent := by
  induction chunks with
  | nil => rfl
  | cons c rest ih =>
      cases c with
      | noBytes => simpa [relayEmits, chunkAudioContent, List.filterMap_cons] using ih
      | noEvent => simpa [relayEmits, chunkAudioContent, List.filterMap_cons] using ih
      | ev e =>
          rw [relayEmits, List.filterMap_append, handleInEvent_audio, ih]
          cases h : e.audioOutput <;>
            simp [chunkAudioContent, List.filterMap_cons, h]

/-- C7 counterexample: an inbound `contentStart` event that carries no
`role` field still produces a role-changed notification to the client
(the handler emits unconditionally, forwarding an absent role), where
the claim requires that it produce none. -/
theorem contentStart_without_role_counterexample :
    relayEmits
        [Chunk.ev
          { audioOutput := none
            textOutput := none
            contentStart := some none }] =
      [ClientMsg.contentStart none] := by rfl

/-- C7 amended: a role-changed notification is emitted for every
inbound `contentStart` event — exactly one per event, in order,
forwarding the event's `role` field whether present or not; inbound
events without a `contentStart` member produce none. -/
theorem contentStart_relay_amended (chunks : List Chunk) :
    (relayEmits chunks).filterMap roleNotifOf =
      chunks.filterMap chunkContentStartRole := by
  induction chunks with
  | nil => rfl
  | cons c rest ih =>
      cases c with
      | noBytes => simpa [relayEmits, chunkContentStartRole, List.filterMap_cons] using ih
      | noEvent => simpa [relayEmits, chunkContentStartRole, List.filterMap_cons] using ih
      | ev e =>
          rw [relayEmits, List.filterMap_append, handleInEvent_role, ih]
          cases h : e.contentStart <;>
            simp [chunkContentStartRole, List.filterMap_cons, h]

/-- C4 counterexample: with an active session, a failure while
forwarding an audio chunk and a failure during teardown are both
silently swallowed — the catch blocks only log to the console, so the
number of error messages ever emitted to the client stays zero, where
the claim requires each failure to be surfaced exactly once. -/
theorem silent_failure_counterexample :
    errCount (audioDataFail "boom" (startSession none (connInit "c4"))).trace = 0 ∧
    errCount (closeSessionFail 0 "boom" (startSession none (connInit "c4"))).trace = 0 :=
  ⟨rfl, rfl⟩

/-- C4 amended: a failure during the setup sequence is surfaced to the
client exactly once as a human-readable message, but failures during
audio-chunk forwarding and during teardown are caught and logged to
the console without surfacing anything to the client; no failure is
retried. -/
theorem error_surfacing_amended (config : Option Config) (opened : Bool)
    (sent : Nat) (msg : String) (st : ConnState) :
    errCount (startSessionFail config opened sent msg st).trace = errCount st.trace + 1 ∧
    errCount (audioDataFail msg st).trace = errCount st.trace ∧
    errCount (closeSessionFail sent msg st).trace = errCount st.trace := by
  refine ⟨?_, ?_, ?_⟩
  · cases opened with
    | false =>
        show errCount (st.trace
            ++ [Act.log _] ++ ([] : List Act)
            ++ [Act.log _, Act.emit (.error msg)]) = _
        rw [errCount_append, errCount_append, errCount_append]
        show errCount st.trace + 0 + 0 + 1 = _
        omega
    | true =>
        show errCount (st.trace
            ++ [Act.log _]
            ++ ((setupEvents _ _).take sent).map Act.up
            ++ [Act.log _, Act.emit (.error msg)]) = _
        rw [errCount_append, errCount_append, errCount_append, errCount_map_up]
        show errCount st.trace + 0 + 0 + 1 = _
        omega
  · cases h : st.session with
    | false => rw [audioDataFail, if_neg (by simp [h])]
    | true =>
        rw [audioDataFail, if_pos (by simp [h])]
        show errCount (st.trace ++ [Act.log _]) = _
        rw [errCount_append]
        show errCount st.trace + 0 = _
        omega
  · cases h : st.session with
    | false => rw [closeSessionFail, if_neg (by simp [h])]
    | true =>
        rw [closeSessionFail, if_pos (by simp [h])]
        show errCount (st.trace ++ (teardownEvents.take sent).map Act.up
            ++ [Act.log _]) = _
        rw [errCount_append, errCount_append, errCount_map_up]
        show errCount st.trace + 0 + 0 = _
        omega

/-- C5 counterexample: after the relay loop of a started session
terminates abnormally (an error not named `AbortError`), exactly one
error is emitted — but the session is NOT torn down: the session
handle is still held and not a single teardown event (content-end,
prompt-end, session-end) is written to the upstream stream, where the
claim requires the session to be torn down. -/
theorem relay_failure_no_teardown_counterexample :
    errCount (processResponsesRun [] (Termination.errorEnd "TypeError" "boom")
        (startSession none (connInit "c5"))).trace = 1 ∧
    (processResponsesRun [] (Termination.errorEnd "TypeError" "boom")
        (startSession none (connInit "c5"))).session = true ∧
    upstreamOf (processResponsesRun [] (Termination.errorEnd "TypeError" "boom")
        (startSession none (connInit "c5"))).trace =
      upstreamOf (startSession none (connInit "c5")).trace :=
  ⟨rfl, rfl, rfl⟩

/-- C5 amended: when the relay loop terminates abnormally with an
error not named `AbortError`, exactly one error message is surfaced to
the client; a benign cancellation (`AbortError`) and a normal stream
end surface none. The loop itself performs no teardown: the session
handle, the registry entry and the upstream stream are untouched. -/
theorem processResponses_termination_amended (chunks : List Chunk)
    (name msg : String) (st : ConnState) :
    errCount (processResponsesRun chunks (Termination.errorEnd name msg) st).trace =
      errCount st.trace + (if name == "AbortError" then 0 else 1) ∧
    errCount (processResponsesRun chunks Termination.normalEnd st).trace =
      errCount st.trace ∧
    (processResponsesRun chunks (Termination.errorEnd name msg) st).session =
      st.session ∧
    (processResponsesRun chunks (Termination.errorEnd name msg) st).inMap =
      st.inMap ∧
    upstreamOf (processResponsesRun chunks (Termination.errorEnd name msg) st).trace =
      upstreamOf st.trace := by
  have hrelay : errCount ((relayEmits chunks).map Act.emit) = 0 := by
    rw [errCount_map_emit, relayEmits_no_error]
  refine ⟨?_, ?_, rfl, rfl, ?_⟩
  · show errCount (st.trace ++ (relayEmits chunks).map Act.emit
        ++ relayTail (.errorEnd name msg)) = _
    rw [errCount_append, errCount_append, hrelay]
    cases h : name == "AbortError" with
    | false =>
        rw [relayTail, if_neg (by simp [h])]
        have h1 : errCount [Act.log ("Error processing responses: " ++ msg),
            Act.emit (ClientMsg.error msg)] = 1 := rfl
        rw [h1]
        simp
    | true =>
        rw [relayTail, if_pos (by simp [h])]
        have h0 : errCount ([] : List Act) = 0 := rfl
        rw [h0]
        simp
  · show errCount (st.trace ++ (relayEmits chunks).map Act.emit
        ++ relayTail .normalEnd) = _
    rw [errCount_append, errCount_append, hrelay]
    show errCount st.trace + 0 + 0 = _
    omega
  · show upstreamOf (st.trace ++ (relayEmits chunks).map Act.emit
        ++ relayTail (.errorEnd name msg)) = _
    rw [upstreamOf_append, upstreamOf_append, upstreamOf_map_emit]
    cases h : name == "AbortError" with
    | false =>
        rw [relayTail, if_neg (by simp [h])]
        show upstreamOf st.trace ++ [] ++ [] = _
        simp
    | true =>
        rw [relayTail, if_pos (by simp [h])]
        show upstreamOf st.trace ++ [] ++ [] = _
        simp

/-- C2 counterexample: after a started session, invoking end-session
twice writes the teardown sequence twice to the upstream stream — the
`sessionEnd` event is sent two times — because `closeSession` never
clears the closure variable `session`, so its guard does not stop the
second invocation; the claim allows at most one teardown sequence. -/
theorem closeSession_twice_counterexample :
    (upstreamOf (closeSession (closeSession
        (startSession none (connInit "c2")))).trace).countP
      isSessionEndEvent = 2 := rfl

/-- C2 amended: end-session on a connection whose session was never
started is a no-op, and end-session never surfaces an error to the
client; but it is not idempotent once a session has started — the
session handle is never cleared, so each further invocation (explicit
end-session or disconnect) repeats the full teardown sequence on the
upstream stream. -/
theorem closeSession_idempotency_amended (st : ConnState) :
    (st.session = false → closeSession st = st) ∧
    errCount (closeSession st).trace = errCount st.trace ∧
    (st.session = true →
      upstreamOf (closeSession (closeSession st)).trace =
        upstreamOf st.trace ++ teardownEvents ++ teardownEvents) := by
  refine ⟨fun h => by simp [closeSession, h], ?_, fun h => ?_⟩
  · cases h : st.session with
    | false => rw [closeSession, if_neg (by simp [h])]
    | true =>
        rw [closeSession_started st h]
        show errCount (st.trace ++ teardownEvents.map Act.up ++ [Act.log _]) = _
        rw [errCount_append, errCount_append, errCount_map_up]
        show errCount st.trace + 0 + 0 = _
        omega
  · rw [closeSession_started st h]
    rw [closeSession_started
      { st with inMap := false
                trace := st.trace ++ teardownEvents.map Act.up
                  ++ [Act.log ("Session closed: " ++ st.sid)] } h]
    show upstreamOf ((st.trace ++ teardownEvents.map Act.up ++ [Act.log _])
        ++ teardownEvents.map Act.up ++ [Act.log _]) = _
    rw [upstreamOf_append, upstreamOf_append, upstreamOf_append, upstreamOf_append,
      upstreamOf_map_up]
    simp [upstreamOf, upOf, List.filterMap_cons]

/-- Witness for C2 amended: the three conjuncts at concrete states: a
fresh connection, and a connection with a started session, closed once
and twice. -/
theorem closeSession_idempotency_amended_witness :
    closeSession (connInit "w2") = connInit "w2" ∧
    errCount (closeSession (startSession none (connInit "w2"))).trace =
      errCount (startSession none (connInit "w2")).trace ∧
    upstreamOf (closeSession (closeSession (startSession none (connInit "w2")))).trace =
      upstreamOf (startSession none (connInit "w2")).trace
        ++ teardownEvents ++ teardownEvents :=
  ⟨(closeSession_idempotency_amended (connInit "w2")).1 rfl,
   (closeSession_idempotency_amended (startSession none (connInit "w2"))).2.1,
   (closeSession_idempotency_amended (startSession none (connInit "w2"))).2.2 rfl⟩

/-- C6 counterexample: after a `closeSession` on a started session the
session handle is still held (`session` is not cleared), and a
subsequent audio chunk on the same connection is forwarded to the
upstream stream — one `audioInput` event appears — where the claim
requires subsequent requests to be no-ops. -/
theorem closeSession_state_not_cleared_counterexample :
    (closeSession (startSession none (connInit "c6"))).session = true ∧
    (upstreamOf (audioData "zz" (closeSession
        (startSession none (connInit "c6")))).trace).countP
      isAudioInputEvent = 1 :=
  ⟨rfl, rfl⟩

/-- C6 amended: with an active upstream stream, end-session sends
content-end (closing the audio content turn), prompt-end and
session-end, in that order, and removes the connection from the
active-session registry without surfacing any error — but the
per-connection session reference is NOT cleared, so a subsequent
end-session repeats the teardown and a subsequent audio chunk is still
forwarded upstream. -/
theorem closeSession_teardown_amended (st : ConnState) (h : st.session = true) :
    upstreamOf (closeSession st).trace = upstreamOf st.trace ++ teardownEvents ∧
    (closeSession st).inMap = false ∧
    (closeSession st).session = true ∧
    errCount (closeSession st).trace = errCount st.trace := by
  rw [closeSession_started st h]
  refine ⟨?_, rfl, h, ?_⟩
  · show upstreamOf (st.trace ++ teardownEvents.map Act.up ++ [Act.log _]) = _
    rw [upstreamOf_append, upstreamOf_append, upstreamOf_map_up]
    show upstreamOf st.trace ++ teardownEvents ++ [] = _
    simp
  · show errCount (st.trace ++ teardownEvents.map Act.up ++ [Act.log _]) = _
    rw [errCount_append, errCount_append, errCount_map_up]
    show errCount st.trace + 0 + 0 = _
    omega

/-- Witness for C6 amended, at a freshly started session. -/
theorem closeSession_teardown_amended_witness :
    upstreamOf (closeSession (startSession none (connInit "w6"))).trace =
      upstreamOf (startSession none (connInit "w6")).trace ++ teardownEvents ∧
    (closeSession (startSession none (connInit "w6"))).inMap = false ∧
    (closeSession (startSession none (connInit "w6"))).session = true ∧
    errCount (closeSession (startSession none (connInit "w6"))).trace =
      errCount (startSession none (connInit "w6")).trace :=
  closeSession_teardown_amended (startSession none (connInit "w6")) rfl

/-- Mapped upstream writes project to the mapped events. -/
theorem upstreamOf_map_up_comp {α : Type} (g : α → UpEvent) (l : List α) :
    upstreamOf (l.map fun a => Act.up (g a)) = l.map g := by
  induction l with
  | nil => rfl
  | cons a rest ih => simp [upstreamOf, upOf, List.filterMap_cons] at ih ⊢; exact ih

/-- No audio-input frame satisfies a predicate that rejects audio
input. -/
theorem countP_map_audioInput_zero (p : UpEvent → Bool) (frames : List String)
    (hp : ∀ d, p (UpEvent.audioInput .audioContent d) = false) :
    (frames.map fun d => UpEvent.audioInput .audioContent d).countP p = 0 := by
  induction frames with
  | nil => rfl
  | cons d rest ih => simp [List.countP_cons, hp, ih]

/-- The upstream events of a started session's remaining lifecycle:
the forwarded audio frames in order, then the teardown sequence. -/
theorem session_lifecycle_trace (st : ConnState) (h : st.session = true)
    (frames : List String) :
    upstreamOf (closeSession (frames.foldl (fun s d => audioData d s) st)).trace =
      upstreamOf st.trace
        ++ (frames.map fun d => UpEvent.audioInput .audioContent d)
        ++ teardownEvents := by
  rw [foldl_audioData frames st h]
  rw [closeSession_started
    { st with trace := st.trace
        ++ frames.map fun d => Act.up (.audioInput .audioContent d) } h]
  show upstreamOf ((st.trace ++ (frames.map fun d => Act.up (.audioInput .audioContent d)))
      ++ teardownEvents.map Act.up ++ [Act.log _]) = _
  rw [upstreamOf_append, upstreamOf_append, upstreamOf_append,
    upstreamOf_map_up, upstreamOf_map_up_comp]
  simp [upstreamOf, upOf, List.filterMap_cons]

/-- The full upstream event sequence of one session lifecycle: the six
setup events, the audio frames, the three teardown events. -/
theorem sessionTrace_eq (config : Option Config) (sid : String)
    (frames : List String) :
    sessionTrace config sid frames =
      setupEvents (resolveName (jsOr (cfgSourceLang config) "en-US"))
          (resolveName (jsOr (cfgTargetLang config) "es-US"))
        ++ (frames.map fun d => UpEvent.audioInput .audioContent d)
        ++ teardownEvents := by
  unfold sessionTrace
  rw [session_lifecycle_trace (startSession config (connInit sid)) rfl frames]
  rfl

/-- C3: in every session lifecycle — a successful start, any sequence
of forwarded audio chunks, one teardown — the audio content turn is
opened exactly once on the upstream stream, no audio-input frame is
written before that opening, it is closed exactly once, and neither
prompt-end nor session-end is written before that closing. -/
theorem audio_turn_invariant (config : Option Config) (sid : String)
    (frames : List String) :
    (sessionTrace config sid frames).countP isAudioContentStart = 1 ∧
    ((sessionTrace config sid frames).takeWhile
        fun e => !isAudioContentStart e).countP isAudioInputEvent = 0 ∧
    (sessionTrace config sid frames).countP isAudioContentEnd = 1 ∧
    ((sessionTrace config sid frames).takeWhile
        fun e => !isAudioContentEnd e).countP isPromptOrSessionEnd = 0 := by
  rw [sessionTrace_eq config sid frames]
  refine ⟨?_, ?_, ?_, ?_⟩
  · rw [List.countP_append, List.countP_append,
      countP_map_audioInput_zero _ _ fun d => rfl]
    rfl
  · rfl
  · rw [List.countP_append, List.countP_append,
      countP_map_audioInput_zero _ _ fun d => rfl]
    rfl
  · have hA : ∀ a ∈ setupEvents (resolveName (jsOr (cfgSourceLang config) "en-US"))
        (resolveName (jsOr (cfgTargetLang config) "es-US")),
        (fun e => !isAudioContentEnd e) a = true := by
      intro a ha
      simp only [setupEvents, List.mem_cons, List.not_mem_nil, or_false] at ha
      rcases ha with rfl | rfl | rfl | rfl | rfl | rfl <;> rfl
    have hM : ∀ a ∈ (frames.map fun d => UpEvent.audioInput CName.audioContent d),
        (fun e => !isAudioContentEnd e) a = true := by
      intro a ha
      obtain ⟨d, -, rfl⟩ := List.mem_map.1 ha
      rfl
    have hAM : ∀ a ∈ (setupEvents (resolveName (jsOr (cfgSourceLang config) "en-US"))
          (resolveName (jsOr (cfgTargetLang config) "es-US"))
        ++ (frames.map fun d => UpEvent.audioInput CName.audioContent d)),
        (fun e => !isAudioContentEnd e) a = true := by
      intro a ha
      rcases List.mem_append.1 ha with h | h
      · exact hA a h
      · exact hM a h
    rw [takeWhile_append_all _ _ _ hAM]
    rw [List.countP_append, List.countP_append,
      countP_map_audioInput_zero _ _ fun d => rfl]
    rfl

end UnT
